import Mathlib

/-!
Verification of the Hikvision doorbell event-ingestion and reconciliation
core (`doorbell-api.ts`, `entry-sensor.ts` / `main.ts`).

The embedding below translates the relevant TypeScript into Lean:
timestamps are modelled as integer epoch seconds; a device-local wall-clock
time string is modelled as the integer reading of that wall clock, so that
interpreting it in a timezone with offset `off` (seconds east of UTC) yields
absolute time `reading - off`.  Event emissions
(`this.emitEvent('event', kind, channel, flag)`) are modelled as the list of
`(kind, channel, flag)` triples produced by a call, where `flag` is exactly
the third argument the source passes (the source's `inactive` variable).
-/

namespace Doorbell

/-- The `HikvisionDoorbellEvent` enum from `doorbell-api.ts`. -/
inductive HikvisionDoorbellEvent where
  | Motion
  | CaseTamperAlert
  | TalkInvite
  | TalkHangup
  | Unlock
  | Lock
  | DoorOpened
  | DoorClosed
  | DoorAbnormalOpened
  | AccessDenied
deriving DecidableEq, Repr

open HikvisionDoorbellEvent

/-- Constant `maxEventAgeSeconds = 30` from `doorbell-api.ts`. -/
def maxEventAgeSeconds : Int := 30

/-- The `EventCodeMap` from `doorbell-api.ts`: the `(major, minor)` pair is the
source's string key `"major,minor"`; for numeric major/minor the string key
determines the pair, so the map is embedded directly on pairs. -/
def EventCodeMap (major minor : Nat) : Option HikvisionDoorbellEvent :=
  if major = 5 ∧ minor = 25 then some DoorOpened
  else if major = 5 ∧ minor = 26 then some DoorClosed
  else if major = 5 ∧ minor = 92 then some DoorAbnormalOpened
  else if major = 1 ∧ minor = 3 then some Motion
  else if major = 1 ∧ minor = 2 then some CaseTamperAlert
  else if major = 5 ∧ minor = 214 then some Unlock
  else if major = 5 ∧ minor = 9 then some AccessDenied
  else if major = 5 ∧ minor = 22 then some Lock
  else none

/-- One `emitEvent('event', kind, channel, flag)` call: the event kind, the
camera/door number string, and the boolean passed in the third position
(the source's `inactive` variable). -/
structure Emission where
  kind : HikvisionDoorbellEvent
  channel : String
  flag : Bool
deriving DecidableEq, Repr

/-- Session-wide time configuration shared by the ingestion paths:
`deviceTimezone` is the cached resolver result as an offset in seconds east
of UTC (`none` when never loaded), `hostOffset` is the host's local-time
offset in seconds east of UTC (what a bare `new Date(localString)` uses),
and `now` is the current absolute time in epoch seconds. -/
structure TimeCfg where
  deviceTimezone : Option Int
  hostOffset : Int
  now : Int
deriving Repr

/-- Semantics of `new Date(localTimeStr)` on a string with no timezone designator:
the host interprets the wall-clock reading in its own offset. -/
def rawDateParse (cfg : TimeCfg) (localReading : Int) : Int :=
  localReading - cfg.hostOffset

/-- Function `convertDeviceTimeToUTC` from `doorbell-api.ts`: if `deviceTimezone`
is unset, fall back to `new Date(localTimeStr)` (host interpretation);
otherwise append the cached offset, so the reading is interpreted in the
device's offset. -/
def convertDeviceTimeToUTC (cfg : TimeCfg) (localReading : Int) : Int :=
  match cfg.deviceTimezone with
  | none => rawDateParse cfg localReading
  | some off => localReading - off

/-- A JSON record parsed out of the alert stream
(`processAlertStreamEvent`'s `eventData`): `channelID` (absent → `'1'`),
`eventType`, `eventState`, `dateTime` (absent → no age check; an ISO string
carrying its own offset, so modelled as an absolute epoch value), and the
`AccessControllerEvent` payload's `(majorEventType, subEventType)` when
present. -/
structure StreamEvent where
  channelID : Option Nat
  eventType : String
  eventState : String
  dateTime : Option Int
  ace : Option (Nat × Nat)
deriving Repr

/-- Function `processAlertStreamEvent` from `doorbell-api.ts`, as the list of
`emitEvent('event', ...)` calls it makes: age-filter on `dateTime`, drop
`videoloss`, then map `(majorEventType, subEventType)` through
`EventCodeMap` and emit `(kind, cameraNumber, inactive)`. -/
def processAlertStreamEvent (cfg : TimeCfg) (ev : StreamEvent) : List Emission :=
  let cameraNumber := match ev.channelID with
    | some c => toString c
    | none => "1"
  let inactive := ev.eventState == "inactive"
  let tooOld : Bool := match ev.dateTime with
    | some t => decide (cfg.now - t > maxEventAgeSeconds)
    | none => false
  if tooOld then []
  else if ev.eventType == "videoloss" then []
  else if ev.eventType == "AccessControllerEvent" then
    match ev.ace with
    | some (major, sub) =>
      match EventCodeMap major sub with
      | some doorbellEvent => [⟨doorbellEvent, cameraNumber, inactive⟩]
      | none => []
    | none => []
  else []

/-- Interface `AcsEventInfo` from `doorbell-api.ts`: `major`, `minor`, and the
device-local `time` string, modelled as the wall-clock reading in seconds
(the interface declares `time` as always present). -/
structure AcsEventInfo where
  major : Nat
  minor : Nat
  time : Int
deriving DecidableEq, Repr

/-- Function `processAcsEvent` from `doorbell-api.ts`: looks up `(major, minor)` in
`EventCodeMap`, age-filters using `convertDeviceTimeToUTC`, and emits
`(kind, '1', false)` (polling events are always emitted with
`inactive = false`). -/
def processAcsEvent (cfg : TimeCfg) (eventInfo : AcsEventInfo) : List Emission :=
  let doorbellEvent := EventCodeMap eventInfo.major eventInfo.minor
  let eventTime := convertDeviceTimeToUTC cfg eventInfo.time
  if cfg.now - eventTime > maxEventAgeSeconds then []
  else
    match doorbellEvent with
    | some dbe => [⟨dbe, "1", false⟩]
    | none => []

/-- The entry loop of `pollAndProcessAcsEvents`: walks the `InfoList`,
skipping entries whose `new Date(eventInfo.time)` (host interpretation,
`rawDateParse`) is `<=` the optional `lastEventTime`, and for the rest
records them (they are passed to `processAcsEvent`) while tracking
`latestEventTime`, the strict maximum of the raw times of processed
entries.  Returns the processed entries in order and `latestEventTime`. -/
def acsScanEntries (cfg : TimeCfg) (lastEventTime : Option Int) :
    List AcsEventInfo → List AcsEventInfo × Option Int
  | [] => ([], none)
  | e :: rest =>
    let eventTime := rawDateParse cfg e.time
    let skip : Bool := match lastEventTime with
      | some w => decide (eventTime ≤ w)
      | none => false
    if skip then acsScanEntries cfg lastEventTime rest
    else
      let r := acsScanEntries cfg lastEventTime rest
      let latest := match r.2 with
        | none => some eventTime
        | some l => some (max l eventTime)
      (e :: r.1, latest)

/-- Function `pollAndProcessAcsEvents` from `doorbell-api.ts` for one poll cycle
whose query succeeded with `entries`: `lastEventTime` is the optional
parameter, `lastAcsEventTime` the current field value.  Returns the entries
routed to `processAcsEvent`, the emissions they produce, and the value of
`lastAcsEventTime` after the cycle (updated only when a processed entry was
found). -/
def pollAndProcessAcsEvents (cfg : TimeCfg) (lastEventTime : Option Int)
    (lastAcsEventTime : Int) (entries : List AcsEventInfo) :
    List AcsEventInfo × List Emission × Int :=
  let scanned := acsScanEntries cfg lastEventTime entries
  (scanned.1, scanned.1.flatMap (processAcsEvent cfg),
    match scanned.2 with
    | some latest => latest
    | none => lastAcsEventTime)

/-- The value of the `latestEventTime` accumulator over the raw times of
the processed entries, in list order: `none` before any entry is
processed, and `if (!latestEventTime || eventTime > latestEventTime)`
keeps the strict maximum. -/
def optMaxInt : List Int → Option Int
  | [] => none
  | t :: rest =>
    match optMaxInt rest with
    | none => some t
    | some l => some (max l t)

/-! ### Timezone parsing (`getDeviceTimezone`) -/

/-- Semantics of `String.padStart(2, '0')` on the hours capture of the timezone regex. -/
def padStart2 (s : String) : String :=
  match s.length with
  | 0 => "00"
  | 1 => "0" ++ s
  | _ => s

/-- Matcher for the tail of the regex
`CST([+-])(\d{1,2}):(\d{2}):(\d{2})` after a one-digit hours capture:
requires `:` then two digits, `:`, two digits.  Returns (hours, minutes). -/
def tzMatchOneDigitHours (d1 : Char) (rest : List Char) : Option (String × String) :=
  match rest with
  | ':' :: m1 :: m2 :: ':' :: s1 :: s2 :: _ =>
    if m1.isDigit && m2.isDigit && s1.isDigit && s2.isDigit then
      some (String.mk [d1], String.mk [m1, m2])
    else none
  | _ => none

/-- Matcher for the regex tail `(\d{1,2}):(\d{2}):(\d{2})`: greedy
two-digit hours first, falling back to one digit as the regex engine
would.  Returns (hours, minutes); the seconds capture is matched but
unused by the source. -/
def tzMatchBody (l : List Char) : Option (String × String) :=
  match l with
  | d1 :: rest =>
    if d1.isDigit then
      match rest with
      | d2 :: ':' :: m1 :: m2 :: ':' :: s1 :: s2 :: _ =>
        if d2.isDigit && m1.isDigit && m2.isDigit && s1.isDigit && s2.isDigit then
          some (String.mk [d1, d2], String.mk [m1, m2])
        else tzMatchOneDigitHours d1 rest
      | _ => tzMatchOneDigitHours d1 rest
    else none
  | [] => none

/-- Attempt the whole regex at one position: literal `CST`, a sign, then
the numeric body.  Returns (sign, hours, minutes). -/
def tzMatchAt (l : List Char) : Option (Char × String × String) :=
  match l with
  | 'C' :: 'S' :: 'T' :: sign :: rest =>
    if sign = '+' ∨ sign = '-' then
      match tzMatchBody rest with
      | some (h, m) => some (sign, h, m)
      | none => none
    else none
  | _ => none

/-- Leftmost match of `CST([+-])(\d{1,2}):(\d{2}):(\d{2})` over the
string, as `String.prototype.match` performs it. -/
def tzFindMatch : List Char → Option (Char × String × String)
  | [] => none
  | c :: rest =>
    match tzMatchAt (c :: rest) with
    | some r => some r
    | none => tzFindMatch rest

/-- The parse step of `getDeviceTimezone` from `doorbell-api.ts`: match the
CST pattern, invert the sign, pad hours to two digits and keep the minutes
(`none` models the paths where `getDeviceTimezone` throws and falls back to
the system timezone). -/
def parseDeviceTimezone (timezoneStr : String) : Option String :=
  match tzFindMatch timezoneStr.toList with
  | some (sign, hours, minutes) =>
    let invertedSign := if sign = '-' then "+" else "-"
    some (invertedSign ++ padStart2 hours ++ ":" ++ minutes)
  | none => none

/-! ### Capability store (`loadDoorCapabilities` single-flight)

JavaScript is single-threaded with run-to-completion between `await`
points.  `loadDoorCapabilities` performs no `await` between its
`capabilitiesLoaded` / `loadCapabilitiesPromise` checks and the assignment
of `loadCapabilitiesPromise`, so each call's prefix up to the point where
the caller awaits the shared promise is one atomic step; the settlement of
the fetch (which runs `performCapabilitiesLoad`'s continuation and the
`finally` clause) is another atomic step.  The model below gives each
started fetch a fresh promise id and counts issued fetches. -/

structure CapState where
  capabilitiesLoaded : Bool
  loadCapabilitiesPromise : Option Nat
  fetchCount : Nat
  nextPromiseId : Nat
deriving DecidableEq, Repr

/-- The fresh store: `capabilitiesLoaded = false`, no in-flight promise,
no fetch issued yet. -/
def capInit : CapState := ⟨false, none, 0, 0⟩

/-- The atomic prefix of one `loadDoorCapabilities` call: return
immediately if loaded (`none`: the caller awaits nothing), join the
in-flight promise if one exists, otherwise start `performCapabilitiesLoad`
(issuing one fetch) and store its promise.  The second component is the
promise id the caller awaits. -/
def loadDoorCapabilitiesCall (s : CapState) : CapState × Option Nat :=
  if s.capabilitiesLoaded then (s, none)
  else
    match s.loadCapabilitiesPromise with
    | some p => (s, some p)
    | none =>
      ({ capabilitiesLoaded := s.capabilitiesLoaded,
         loadCapabilitiesPromise := some s.nextPromiseId,
         fetchCount := s.fetchCount + 1,
         nextPromiseId := s.nextPromiseId + 1 }, some s.nextPromiseId)

/-- Settlement of the in-flight load: on success
`performCapabilitiesLoad` sets `capabilitiesLoaded := true` (on failure it
rethrows, leaving it false), and the `finally` clause clears
`loadCapabilitiesPromise` in both cases. -/
def loadDoorCapabilitiesSettle (s : CapState) (success : Bool) : CapState :=
  { s with capabilitiesLoaded := s.capabilitiesLoaded || success,
           loadCapabilitiesPromise := none }

/-- Model of `n` concurrent callers entering `loadDoorCapabilities` before the
fetch settles: each runs its atomic call prefix in turn.  Returns the
final state and, per caller, the promise id awaited. -/
def loadDoorCapabilitiesCallN : Nat → CapState → CapState × List (Option Nat)
  | 0, s => (s, [])
  | n + 1, s =>
    let r := loadDoorCapabilitiesCall s
    let rest := loadDoorCapabilitiesCallN n r.1
    (rest.1, r.2 :: rest.2)

/-! ### Call status poller (`getCallStatus`, `startCallStatusPolling`) -/

/-- Function `getCallStatus` from `doorbell-api.ts`.  The device interaction is
modelled as `Except String (Option String)`: `.error` is any transport or
JSON-parse failure inside the `try` block, `.ok st` a parsed response whose
`CallStatus.status` field is `st` (`none` or the empty string fall back to
`'idle'` via `|| 'idle'`).  Returns `(isRinging, callState)`; the function
is total — every failure is caught and mapped to `(false, 'idle')`. -/
def getCallStatus (resp : Except String (Option String)) : Bool × String :=
  match resp with
  | .error _ => (false, "idle")
  | .ok st =>
    let callState := match st with
      | some s => if s == "" then "idle" else s
      | none => "idle"
    (callState == "ringing", callState)

/-- One tick of the `setInterval` body in `startCallStatusPolling`, given
the remembered `lastCallState` and the polled `callState`: emits
`TalkInvite` on the idle→ringing edge, `TalkHangup` on the ringing→idle
edge, nothing otherwise, and updates `lastCallState` on any change. -/
def callPollStep (lastCallState callState : String) : String × List Emission :=
  if callState != lastCallState then
    let ems :=
      if callState == "ringing" && lastCallState == "idle" then
        [⟨HikvisionDoorbellEvent.TalkInvite, "1", false⟩]
      else if lastCallState == "ringing" && callState == "idle" then
        [⟨HikvisionDoorbellEvent.TalkHangup, "1", false⟩]
      else []
    (callState, ems)
  else (lastCallState, [])

/-- Run the poll loop over a sequence of successive polled call states,
concatenating the emissions. -/
def runCallPolls (lastCallState : String) : List String → String × List Emission
  | [] => (lastCallState, [])
  | s :: rest =>
    let step := callPollStep lastCallState s
    let r := runCallPolls step.1 rest
    (r.1, step.2 ++ r.2)

/-- Number of adjacent transitions `a → b` in a sequence of states. -/
def countEdges (a b : String) : List String → Nat
  | x :: y :: rest => (if x == a && y == b then 1 else 0) + countEdges a b (y :: rest)
  | _ => 0

/-- Number of emissions of a given kind. -/
def countKind (k : HikvisionDoorbellEvent) (ems : List Emission) : Nat :=
  (ems.filter (fun e => e.kind = k)).length

/-! ### Entity reconciler (`HikvisionCameraDoorbell.listenEvents` handler)

The `events.on('event', ...)` handler of `main.ts`.  The per-door maps
`this.locks` / `this.entrySensors` are keyed by
`` `${nativeId}-lock-${doorNo}` `` / `` `${nativeId}-entry-${doorNo}` ``,
i.e. by `doorNo` for a fixed camera, so they are embedded as association
lists keyed by `doorNo`; a present key models a provisioned entity.
Node timers are modelled as fresh ids drawn from a counter:
`clearTimeout` drops the stored handle, and a timer can fire only while its
id is the stored one (a cleared or replaced timer never fires). -/

/-- The `LockState` of the scrypted SDK, as used by the handler. -/
inductive LockStateE where
  | Locked
  | Unlocked
deriving DecidableEq, Repr

/-- Semantics of `Map.set` on an association list: replaces the value at an existing
key (the handler only ever updates entities that were looked up). -/
def setAssoc {β : Type} (l : List (String × β)) (k : String) (v : β) :
    List (String × β) :=
  l.map (fun p => if p.1 == k then (p.1, v) else p)

structure ReconcilerCfg where
  motionPingsNeeded : Nat
  motionTimeoutDuration : Nat
deriving Repr

/-- The mutable state the handler touches: tamper entity (present?, on),
the motion pulse counter and flag with its decay timer, the doorbell
`binaryState`, the per-door lock and entry-sensor entities, the
`doorOpenDurationTimeout` field holding the last `setTimeout` handle
stored by an Unlock continuation (`clearTimeout` does not null the field),
and `liveRelocks`, the auto-relock timers that have been scheduled and
neither cleared nor fired — `(handle, delayMs, capturedDoorNo)` in
creation order.  Overwriting the field does not cancel a timer, so more
than one relock can be live at once. -/
structure ReconcilerState where
  tamperProvisioned : Bool
  tamperOn : Bool
  motionPings : Nat
  motionDetected : Bool
  motionTimer : Option Nat
  binaryState : Bool
  locks : List (String × LockStateE)
  entrySensors : List (String × Bool)
  doorOpenDurationTimeout : Option Nat
  liveRelocks : List (Nat × Nat × String)
  nextTimerId : Nat
deriving DecidableEq, Repr

/-- Semantics of `clearTimeout(this.doorOpenDurationTimeout)`: cancels the
timer whose handle the field currently holds, if that timer is still live
(clearing an already-fired, already-cleared or never-assigned handle is a
no-op); the field itself is left unchanged. -/
def clearDoorOpenDurationTimeout (s : ReconcilerState) : ReconcilerState :=
  match s.doorOpenDurationTimeout with
  | some h => { s with liveRelocks := s.liveRelocks.filter (fun t => t.1 != h) }
  | none => s

/-- The synchronous prefix of the Unlock/Lock branch of the `main.ts`
handler, up to (not including) the `await` of `getDoorOpenDuration`:
look up the lock entity (absent → logged no-op), set its state, run
`clearTimeout(this.doorOpenDurationTimeout)`.  The second component is
true when the handler is now suspended on the open-duration fetch with
the `setTimeout` continuation still pending (the Unlock case). -/
def handleLockEventSync (s : ReconcilerState) (isUnlock : Bool)
    (doorNo : String) : ReconcilerState × Bool :=
  match s.locks.lookup doorNo with
  | some _ =>
    let newState := if isUnlock then LockStateE.Unlocked else LockStateE.Locked
    let s1 := { s with locks := setAssoc s.locks doorNo newState }
    (clearDoorOpenDurationTimeout s1, isUnlock)
  | none => (s, false)

/-- The continuation of the Unlock handler after
`await this.getClient().getDoorOpenDuration(doorNo)` resolves with
`openDuration` (seconds): schedule the relock `setTimeout` at
`openDuration * 1000` ms capturing the door's lock, and store its handle
in `this.doorOpenDurationTimeout` — without cancelling whatever handle the
field held before. -/
def handleUnlockResume (s : ReconcilerState) (doorNo : String)
    (openDuration : Nat) : ReconcilerState :=
  { s with
    liveRelocks := s.liveRelocks ++ [(s.nextTimerId, openDuration * 1000, doorNo)],
    doorOpenDurationTimeout := some s.nextTimerId,
    nextTimerId := s.nextTimerId + 1 }

/-- The `events.on('event', (event, doorNo) => ...)` handler body from
`main.ts`, run without interleaving: for Unlock this is
`handleLockEventSync` followed immediately by `handleUnlockResume`, i.e.
the schedule in which no other handler runs between the `clearTimeout` and
the `setTimeout` of the open-duration continuation.  `openDuration` is the
value (in seconds) the awaited `getDoorOpenDuration(doorNo)` resolves to.
The `setTimeout(() => this.stopRinging(), 3000)` side call of the Unlock
path and the `controlEvents` signals are external effects not modelled in
the state. -/
def handleDoorbellEvent (cfg : ReconcilerCfg) (s : ReconcilerState)
    (event : HikvisionDoorbellEvent) (doorNo : String) (openDuration : Nat) :
    ReconcilerState :=
  let step1 : ReconcilerState × HikvisionDoorbellEvent :=
    if event = CaseTamperAlert then
      if s.tamperProvisioned then ({ s with tamperOn := true }, event)
      else (s, Motion)
    else (s, event)
  let s := step1.1
  let event := step1.2
  if event = Motion then
    let motionPings := s.motionPings + 1
    { s with motionPings := motionPings,
             motionDetected := decide (motionPings ≥ cfg.motionPingsNeeded),
             motionTimer := some s.nextTimerId,
             nextTimerId := s.nextTimerId + 1 }
  else if event = TalkInvite then { s with binaryState := true }
  else if event = TalkHangup then { s with binaryState := false }
  else if event = Unlock ∨ event = Lock then
    let r := handleLockEventSync s (decide (event = Unlock)) doorNo
    if r.2 then handleUnlockResume r.1 doorNo openDuration else r.1
  else if event = DoorOpened ∨ event = DoorClosed then
    match s.entrySensors.lookup doorNo with
    | some _ =>
      { s with entrySensors := setAssoc s.entrySensors doorNo (decide (event = DoorOpened)) }
    | none => s
  else s

/-- The firing of an auto-relock `setTimeout` callback: enabled only while
the timer is live (a cleared timer never fires, a fired timer does not
refire); the callback sets the captured door's lock state to `Locked`
unconditionally. -/
def fireRelockTimer (s : ReconcilerState) (id : Nat) : ReconcilerState :=
  match s.liveRelocks.find? (fun t => t.1 == id) with
  | some (_, _, doorNo) =>
    { s with locks := setAssoc s.locks doorNo LockStateE.Locked,
             liveRelocks := s.liveRelocks.filter (fun t => t.1 != id) }
  | none => s

/-- The motion-decay `setTimeout` callback from the Motion branch: enabled
only for the currently stored motion timer id; resets `motionDetected` and
the pulse counter. -/
def fireMotionTimeout (s : ReconcilerState) (id : Nat) : ReconcilerState :=
  if s.motionTimer = some id then
    { s with motionDetected := false, motionPings := 0, motionTimer := none }
  else s

/-- A fresh reconciler state with a provisioned lock and entry sensor for
door `'1'` (as after `getDevice` created both companion entities). -/
def c6s0 : ReconcilerState :=
  ⟨false, false, 0, false, none, false, [("1", LockStateE.Locked)], [("1", false)],
   none, [], 0⟩

/-- Two Unlock events for door `'1'` delivered in one synchronous batch:
both handlers run their synchronous prefix (each performing its
`clearTimeout`) before either `getDoorOpenDuration` await resolves. -/
def c6bothSync : ReconcilerState :=
  (handleLockEventSync (handleLockEventSync c6s0 true "1").1 true "1").1

/-- The interleaved schedule completed: the first handler's continuation
resumes with duration 5 s and stores its timer, then the second's resumes
with duration 7 s and overwrites the field — without any further
`clearTimeout`, leaving both relock timers live. -/
def c6interleaved : ReconcilerState :=
  handleUnlockResume (handleUnlockResume c6bothSync "1" 5) "1" 7

/-! ### Fallback-to-cache operations (`getDoorOpenDuration`, `getVideoChannels`) -/

/-- Errors surfaced by `getDoorOpenDuration`: the out-of-range validation
`Error`, or the very error thrown by the live fetch (rethrown when no
cached value exists). -/
inductive DoorApiError (ε : Type) where
  | outOfRange (doorNo : Int)
  | fetch (e : ε)
deriving DecidableEq, Repr

/-- Door capability fields of `HikvisionDoorbellAPI` used for validation. -/
structure DoorCaps where
  doorMinNo : Int
  doorMaxNo : Int
deriving Repr

/-- Function `getDoorOpenDuration` from `doorbell-api.ts` (after capabilities are
loaded): validates `doorNo`, then tries the live fetch — on success the
body is written to storage, on failure the stored body is used, and if no
stored body exists the original fetch error is rethrown.  `fetchResult` is
the outcome of the ISAPI request, `cached` the current storage entry for
`doorOpenDuration_<doorNo>`, `parseOpenDuration` the XML-parse +
`Number(...)` step.  Returns the parsed duration together with the storage
entry after the call. -/
def getDoorOpenDuration {ε : Type} (caps : DoorCaps) (doorNo : Int)
    (fetchResult : Except ε String) (cached : Option String)
    (parseOpenDuration : String → Int) :
    Except (DoorApiError ε) (Int × Option String) :=
  if doorNo < caps.doorMinNo ∨ doorNo > caps.doorMaxNo then
    Except.error (DoorApiError.outOfRange doorNo)
  else
    match fetchResult with
    | .ok xml => Except.ok (parseOpenDuration xml, some xml)
    | .error e =>
      match cached with
      | some xml => Except.ok (parseOpenDuration xml, cached)
      | none => Except.error (DoorApiError.fetch e)

/-- Function `getVideoChannels` from `doorbell-api.ts`: tries `getCodecs` — on
success the channel list is written to storage (`channelsJSON`), on failure
the stored list is used, and if none is stored the original error is
rethrown.  The returned `Map` keyed by channel id is modelled as the list
of `(id, options)` pairs in order.  Returns the channel pairs together
with the storage entry after the call. -/
def getVideoChannels {ε χ : Type} (fetchResult : Except ε (List (String × χ)))
    (cached : Option (List (String × χ))) :
    Except ε (List (String × χ) × Option (List (String × χ))) :=
  match fetchResult with
  | .ok channels => Except.ok (channels, some channels)
  | .error e =>
    match cached with
    | some channels => Except.ok (channels, cached)
    | none => Except.error e

/-! ## Claims -/

/-- C2: For every raw event from either source (alert stream or ACS poll)
whose resolved occurredAt is more than 30 seconds before the current time
at normalization, no canonical event is emitted for that raw event.
(`processAlertStreamEvent` resolves occurredAt as `new Date(dateTime)`,
`processAcsEvent` via `convertDeviceTimeToUTC`; both return before any
`emitEvent` when the age exceeds `maxEventAgeSeconds`.) -/
theorem C2_stale_events_not_emitted :
    (∀ (cfg : TimeCfg) (ev : StreamEvent) (t : Int), ev.dateTime = some t →
      cfg.now - t > maxEventAgeSeconds → processAlertStreamEvent cfg ev = []) ∧
    (∀ (cfg : TimeCfg) (e : AcsEventInfo),
      cfg.now - convertDeviceTimeToUTC cfg e.time > maxEventAgeSeconds →
      processAcsEvent cfg e = []) := by
  constructor
  · intro cfg ev t hdt hage
    simp only [processAlertStreamEvent, hdt]
    rw [if_pos (by simpa using hage)]
  · intro cfg e hage
    simp only [processAcsEvent]
    rw [if_pos hage]

/-- C2 witness: a 100-second-old event from each source is dropped. -/
theorem C2_stale_events_not_emitted_witness :
    processAlertStreamEvent ⟨none, 0, 100⟩
      ⟨some 1, "AccessControllerEvent", "", some 0, some (5, 25)⟩ = [] ∧
    processAcsEvent ⟨none, 0, 100⟩ ⟨5, 25, 0⟩ = [] :=
  ⟨C2_stale_events_not_emitted.1 ⟨none, 0, 100⟩ _ 0 rfl (by decide),
   C2_stale_events_not_emitted.2 ⟨none, 0, 100⟩ ⟨5, 25, 0⟩ (by decide)⟩

/-- C3: Timezone parsing inverts the device's sign convention:
`"CST-3:00:00"` yields `"+03:00"` and `"CST+5:30:00"` yields `"-05:30"`. -/
theorem C3_timezone_sign_inversion :
    parseDeviceTimezone "CST-3:00:00" = some "+03:00" ∧
    parseDeviceTimezone "CST+5:30:00" = some "-05:30" := by
  decide

/-- C7: the claim says a DoorAbnormalOpened canonical event sets the
channel's entry sensor to Jammed (and the entry-sensor README documents a
Jammed state), but the reconciler's dispatch has no branch for
DoorAbnormalOpened at all: the handler returns the state unchanged for
every state, provisioned entry sensor or not — in particular for a state
with a provisioned sensor for door `'1'`. -/
theorem C7_door_abnormal_opened_is_noop :
    (∀ (cfg : ReconcilerCfg) (s : ReconcilerState) (doorNo : String) (d : Nat),
      handleDoorbellEvent cfg s HikvisionDoorbellEvent.DoorAbnormalOpened doorNo d = s) ∧
    handleDoorbellEvent ⟨1, 10000⟩
      ⟨false, false, 0, false, none, false, [("1", LockStateE.Locked)], [("1", false)],
       none, [], 0⟩
      HikvisionDoorbellEvent.DoorAbnormalOpened "1" 5 =
      ⟨false, false, 0, false, none, false, [("1", LockStateE.Locked)], [("1", false)],
       none, [], 0⟩ := by
  constructor
  · intro cfg s doorNo d
    rfl
  · rfl

/-- C9: a failing live fetch with a cached value uses the cached value, and
a failing live fetch with no cached value rethrows the original fetch
error, for both `getDoorOpenDuration` and `getVideoChannels`. -/
theorem C9_cache_fallback_original_error :
    ∀ (ε χ : Type) (caps : DoorCaps) (doorNo : Int) (e : ε)
      (parse : String → Int) (xml : String) (channels : List (String × χ)),
      caps.doorMinNo ≤ doorNo → doorNo ≤ caps.doorMaxNo →
      getDoorOpenDuration caps doorNo (Except.error e) (some xml) parse =
        Except.ok (parse xml, some xml) ∧
      getDoorOpenDuration caps doorNo (Except.error e) none parse =
        Except.error (DoorApiError.fetch e) ∧
      getVideoChannels (Except.error e) (some channels) =
        Except.ok (channels, some channels) ∧
      getVideoChannels (ε := ε) (χ := χ) (Except.error e) none = Except.error e := by
  intro ε χ caps doorNo e parse xml channels hmin hmax
  have hrange : ¬(doorNo < caps.doorMinNo ∨ doorNo > caps.doorMaxNo) := by omega
  refine ⟨?_, ?_, rfl, rfl⟩
  · simp only [getDoorOpenDuration]
    rw [if_neg hrange]
  · simp only [getDoorOpenDuration]
    rw [if_neg hrange]

/-- C9 witness: concrete fallbacks for door 1 on a transport error. -/
theorem C9_cache_fallback_original_error_witness :
    getDoorOpenDuration ⟨1, 1⟩ 1 (Except.error "neterr") (some "<xml>")
      (fun _ => 5) = Except.ok (5, some "<xml>") ∧
    getDoorOpenDuration ⟨1, 1⟩ 1 (Except.error "neterr") none (fun _ => 5) =
      Except.error (DoorApiError.fetch "neterr") ∧
    getVideoChannels (Except.error "neterr") (some [("101", 0)]) =
      Except.ok ([("101", 0)], some [("101", 0)]) ∧
    getVideoChannels (ε := String) (χ := Nat) (Except.error "neterr") none =
      Except.error "neterr" :=
  C9_cache_fallback_original_error String Nat ⟨1, 1⟩ 1 "neterr" (fun _ => 5)
    "<xml>" [("101", 0)] (by decide) (by decide)

/-- C10 (implicit): `getCallStatus` is total (every transport or parse
failure is caught) and returns `(false, 'idle')` on any failure, so a
single failed poll while the remembered state is `'ringing'` produces the
same tick as a genuine idle response and emits a `TalkHangup`. -/
theorem C10_call_status_failure_is_idle :
    ∀ (err : String),
      getCallStatus (Except.error err) = (false, "idle") ∧
      callPollStep "ringing" (getCallStatus (Except.error err)).2 =
        ("idle", [⟨HikvisionDoorbellEvent.TalkHangup, "1", false⟩]) ∧
      callPollStep "ringing" (getCallStatus (Except.error err)).2 =
        callPollStep "ringing" (getCallStatus (Except.ok (some "idle"))).2 := by
  intro err
  exact ⟨rfl, rfl, rfl⟩

/-- Callers that join an in-flight load leave the store untouched and all
receive the in-flight promise. -/
theorem loadDoorCapabilitiesCallN_joined (p : Nat) :
    ∀ (n : Nat) (s : CapState), s.capabilitiesLoaded = false →
      s.loadCapabilitiesPromise = some p →
      loadDoorCapabilitiesCallN n s = (s, List.replicate n (some p)) := by
  intro n
  induction n with
  | zero => intro s _ _; rfl
  | succ m ih =>
    intro s h1 h2
    have hcall : loadDoorCapabilitiesCall s = (s, some p) := by
      simp [loadDoorCapabilitiesCall, h1, h2]
    simp [loadDoorCapabilitiesCallN, hcall, ih s h1 h2, List.replicate_succ]

/-- C4: capability loading is single-flight: `n ≥ 1` concurrent first
calls to `loadDoorCapabilities` issue exactly one fetch and all await the
same promise (id 0), hence observe the same outcome; after a failed
settlement the store is unpoisoned (`capabilitiesLoaded` still false, no
promise in flight) and the next call issues a fresh fetch, while a
successful settlement marks capabilities loaded. -/
theorem C4_single_flight_capability_load :
    ∀ (n : Nat), 1 ≤ n →
      (loadDoorCapabilitiesCallN n capInit).1 = ⟨false, some 0, 1, 1⟩ ∧
      (loadDoorCapabilitiesCallN n capInit).2 = List.replicate n (some 0) ∧
      loadDoorCapabilitiesSettle (loadDoorCapabilitiesCallN n capInit).1 false =
        ⟨false, none, 1, 1⟩ ∧
      (loadDoorCapabilitiesCall (loadDoorCapabilitiesSettle
        (loadDoorCapabilitiesCallN n capInit).1 false)).1.fetchCount = 2 ∧
      (loadDoorCapabilitiesCall (loadDoorCapabilitiesSettle
        (loadDoorCapabilitiesCallN n capInit).1 false)).2 = some 1 ∧
      loadDoorCapabilitiesSettle (loadDoorCapabilitiesCallN n capInit).1 true =
        ⟨true, none, 1, 1⟩ := by
  intro n hn
  obtain ⟨m, rfl⟩ : ∃ m, n = m + 1 := ⟨n - 1, by omega⟩
  have hfirst : loadDoorCapabilitiesCall capInit =
      (⟨false, some 0, 1, 1⟩, some 0) := by rfl
  have hrun : loadDoorCapabilitiesCallN (m + 1) capInit =
      (⟨false, some 0, 1, 1⟩, some 0 :: List.replicate m (some 0)) := by
    simp [loadDoorCapabilitiesCallN, hfirst,
      loadDoorCapabilitiesCallN_joined 0 m ⟨false, some 0, 1, 1⟩ rfl rfl]
  rw [hrun]
  refine ⟨rfl, by simp [List.replicate_succ], rfl, rfl, rfl, rfl⟩

/-- C4 witness: three concurrent first callers. -/
theorem C4_single_flight_capability_load_witness :
    (loadDoorCapabilitiesCallN 3 capInit).1 = ⟨false, some 0, 1, 1⟩ ∧
    (loadDoorCapabilitiesCallN 3 capInit).2 = List.replicate 3 (some 0) ∧
    loadDoorCapabilitiesSettle (loadDoorCapabilitiesCallN 3 capInit).1 false =
      ⟨false, none, 1, 1⟩ ∧
    (loadDoorCapabilitiesCall (loadDoorCapabilitiesSettle
      (loadDoorCapabilitiesCallN 3 capInit).1 false)).1.fetchCount = 2 ∧
    (loadDoorCapabilitiesCall (loadDoorCapabilitiesSettle
      (loadDoorCapabilitiesCallN 3 capInit).1 false)).2 = some 1 ∧
    loadDoorCapabilitiesSettle (loadDoorCapabilitiesCallN 3 capInit).1 true =
      ⟨true, none, 1, 1⟩ :=
  C4_single_flight_capability_load 3 (by decide)

/-- One poll tick always remembers the polled state. -/
theorem callPollStep_fst (l c : String) : (callPollStep l c).1 = c := by
  simp only [callPollStep]
  split
  · rfl
  · next h =>
    have : c = l := by simpa using h
    simp [this]

theorem countKind_append (k : HikvisionDoorbellEvent) (a b : List Emission) :
    countKind k (a ++ b) = countKind k a + countKind k b := by
  simp [countKind, List.filter_append]

/-- A tick emits a TalkInvite exactly on the idle→ringing edge. -/
theorem countKind_callPollStep_invite (l c : String) :
    countKind HikvisionDoorbellEvent.TalkInvite (callPollStep l c).2 =
      if l == "idle" && c == "ringing" then 1 else 0 := by
  simp only [callPollStep]
  split
  · next hne =>
    split
    · next hedge =>
      obtain ⟨hc, hl⟩ := by simpa using hedge
      simp [countKind, hc, hl]
    · next hnedge =>
      have : ¬(l = "idle" ∧ c = "ringing") := by
        intro ⟨hl, hc⟩; exact hnedge (by simp [hl, hc])
      split
      · simp [countKind, this]
      · simp [countKind, this]
  · next heq =>
    have hcl : c = l := by simpa using heq
    subst hcl
    have : ¬(c = "idle" ∧ c = "ringing") := by
      rintro ⟨h1, h2⟩
      rw [h1] at h2
      exact absurd h2 (by decide)
    simp [countKind, this]

/-- A tick emits a TalkHangup exactly on the ringing→idle edge. -/
theorem countKind_callPollStep_hangup (l c : String) :
    countKind HikvisionDoorbellEvent.TalkHangup (callPollStep l c).2 =
      if l == "ringing" && c == "idle" then 1 else 0 := by
  simp only [callPollStep]
  split
  · next hne =>
    split
    · next hedge =>
      obtain ⟨hc, hl⟩ := by simpa using hedge
      have : ¬(l = "ringing" ∧ c = "idle") := by
        rintro ⟨h1, h2⟩
        rw [hl] at h1
        exact absurd h1 (by decide)
      simp [countKind, this]
    · next hnedge =>
      split
      · next hedge2 =>
        obtain ⟨hl, hc⟩ := by simpa using hedge2
        simp [countKind, hl, hc]
      · next hnedge2 =>
        have : ¬(l = "ringing" ∧ c = "idle") := by
          intro ⟨hl, hc⟩; exact hnedge2 (by simp [hl, hc])
        simp [countKind, this]
  · next heq =>
    have hcl : c = l := by simpa using heq
    subst hcl
    have : ¬(c = "ringing" ∧ c = "idle") := by
      rintro ⟨h1, h2⟩
      rw [h1] at h2
      exact absurd h2 (by decide)
    simp [countKind, this]

/-- C5: the call status poller is edge-triggered: over any sequence of
successive polled states, TalkInvite is emitted exactly once per
idle→ringing transition and TalkHangup exactly once per ringing→idle
transition; in particular the sequence idle, ringing, ringing, idle
(starting from the initial remembered state `'idle'`) emits exactly one
invite and one hangup. -/
theorem C5_call_poller_edge_triggered :
    (∀ (l0 : String) (ss : List String),
      countKind HikvisionDoorbellEvent.TalkInvite (runCallPolls l0 ss).2 =
        countEdges "idle" "ringing" (l0 :: ss) ∧
      countKind HikvisionDoorbellEvent.TalkHangup (runCallPolls l0 ss).2 =
        countEdges "ringing" "idle" (l0 :: ss)) ∧
      (runCallPolls "idle" ["idle", "ringing", "ringing", "idle"]).2 =
        [⟨HikvisionDoorbellEvent.TalkInvite, "1", false⟩,
         ⟨HikvisionDoorbellEvent.TalkHangup, "1", false⟩] := by
  have key : ∀ (ss : List String) (l0 : String),
      countKind HikvisionDoorbellEvent.TalkInvite (runCallPolls l0 ss).2 =
        countEdges "idle" "ringing" (l0 :: ss) ∧
      countKind HikvisionDoorbellEvent.TalkHangup (runCallPolls l0 ss).2 =
        countEdges "ringing" "idle" (l0 :: ss) := by
    intro ss
    induction ss with
    | nil => intro l0; simp [runCallPolls, countKind, countEdges]
    | cons s rest ih =>
      intro l0
      simp only [runCallPolls, callPollStep_fst]
      constructor
      · rw [countKind_append, countKind_callPollStep_invite, (ih s).1]
        simp [countEdges]
      · rw [countKind_append, countKind_callPollStep_hangup, (ih s).2]
        simp [countEdges]
  exact ⟨fun l0 ss => key ss l0, by decide⟩

/-- C8 counterexample: the claim says every emission carries
`active = !(eventState == "inactive")` in the boolean position of the
subscription boundary, but for a stream `DoorOpened` event with
`eventState = "active"` the code passes its `inactive` variable (`false`)
there, not `active` (`true`): the claim is false at this input. -/
theorem C8_counterexample_active_flag :
    ¬ (∀ em ∈ processAlertStreamEvent ⟨none, 0, 100⟩
        ⟨some 1, "AccessControllerEvent", "active", some 100, some (5, 25)⟩,
        em.flag = !("active" == "inactive")) := by
  decide

/-- C8 amended: every emission carries, in the boolean position of the
`'event'` subscription boundary, the inactive flag —
`eventState == "inactive"` when it originates from the alert stream, and
`false` always when it originates from the ACS poller — so the delivered
boolean is the negation of the claimed `active`. -/
theorem C8_emission_flag_is_inactive :
    (∀ (cfg : TimeCfg) (ev : StreamEvent),
      (processAlertStreamEvent cfg ev).all
        (fun em => em.flag == (ev.eventState == "inactive")) = true) ∧
    (∀ (cfg : TimeCfg) (e : AcsEventInfo),
      (processAcsEvent cfg e).all (fun em => em.flag == false) = true) := by
  constructor
  · intro cfg ev
    simp only [processAlertStreamEvent]
    repeat' split
    all_goals first
      | rfl
      | (simp only [List.all_cons, List.all_nil, Bool.and_true, beq_self_eq_true])
  · intro cfg e
    simp only [processAcsEvent]
    repeat' split
    all_goals rfl

/-- Updating via `Map.set` on a present key makes lookup return the new value. -/
theorem lookup_setAssoc {β : Type} (l : List (String × β)) (k : String) (v : β)
    (h : (l.lookup k).isSome) : (setAssoc l k v).lookup k = some v := by
  induction l with
  | nil => simp [List.lookup] at h
  | cons p rest ih =>
    obtain ⟨pk, pv⟩ := p
    by_cases hk : pk = k
    · subst hk
      simp [setAssoc, List.lookup_cons]
    · have hb : (pk == k) = false := by simpa using hk
      have hb2 : (k == pk) = false := by simpa using Ne.symm hk
      have h' : (rest.lookup k).isSome := by
        simpa [List.lookup_cons, hb2] using h
      simpa [setAssoc, List.lookup_cons, hk, hb, hb2] using ih h'

/-- Clearing the relock field is the identity when no relock timer is
live, whatever handle the field holds. -/
theorem clearDoorOpenDurationTimeout_of_empty (s : ReconcilerState)
    (h : s.liveRelocks = []) : clearDoorOpenDurationTimeout s = s := by
  obtain ⟨a, b, c, d, e, f, g, g2, field, live, next⟩ := s
  change live = [] at h
  subst h
  cases field <;> rfl

/-- C6 counterexample: event emission is synchronous (the emit sites call
the handlers back-to-back), and the `main.ts` handler awaits
`getDoorOpenDuration` between its `clearTimeout` and the `setTimeout` that
stores the new handle, so two Unlock events in one batch interleave: both
synchronous prefixes run (each clearing while no timer exists yet), then
the first continuation stores its 5 s timer and the second overwrites the
field with its 7 s timer without cancelling the first.  Both relock timers
are live after the schedule, each firing is enabled and sets the lock
Locked — the first timer is never cancelled and two relocks fire,
refuting the claim that a second Unlock before `D` elapses cancels the
first timer and at most one relock ever fires. -/
theorem C6_counterexample_interleaved_unlocks :
    c6interleaved.liveRelocks = [(0, 5 * 1000, "1"), (1, 7 * 1000, "1")] ∧
    (fireRelockTimer c6interleaved 0).liveRelocks = [(1, 7 * 1000, "1")] ∧
    (fireRelockTimer c6interleaved 0).locks.lookup "1" = some LockStateE.Locked ∧
    (fireRelockTimer (fireRelockTimer c6interleaved 0) 1).liveRelocks = [] ∧
    (fireRelockTimer (fireRelockTimer c6interleaved 0) 1).locks.lookup "1" =
      some LockStateE.Locked := by
  decide

open HikvisionDoorbellEvent in
/-- C6 amended: for a provisioned door with no live relock timer, an
Unlock whose fetched open-duration is `D1` stores exactly one pending
auto-relock timer `(fresh id, D1·1000 ms, door)` and unlocks the door; a
second Unlock (then-configured duration `D2`) whose handler runs after the
first handler completed — no interleaving across the open-duration `await`
— cancels the first timer and leaves exactly `(fresh id + 1, D2·1000 ms,
door)` pending, so the cancelled timer's firing is a no-op and at most one
relock fires; the live timer's firing sets the door's lock state to
`Locked` unconditionally and consumes the timer. -/
theorem C6_unlock_auto_relock_sequential :
    ∀ (cfg : ReconcilerCfg) (s : ReconcilerState) (doorNo : String)
      (st : LockStateE) (D1 D2 : Nat),
      s.locks.lookup doorNo = some st →
      s.liveRelocks = [] →
      (handleDoorbellEvent cfg s Unlock doorNo D1).liveRelocks =
          [(s.nextTimerId, D1 * 1000, doorNo)] ∧
      (handleDoorbellEvent cfg s Unlock doorNo D1).locks.lookup doorNo =
          some LockStateE.Unlocked ∧
      (handleDoorbellEvent cfg (handleDoorbellEvent cfg s Unlock doorNo D1)
          Unlock doorNo D2).liveRelocks =
        [(s.nextTimerId + 1, D2 * 1000, doorNo)] ∧
      fireRelockTimer
          (handleDoorbellEvent cfg (handleDoorbellEvent cfg s Unlock doorNo D1)
            Unlock doorNo D2) s.nextTimerId =
        handleDoorbellEvent cfg (handleDoorbellEvent cfg s Unlock doorNo D1)
          Unlock doorNo D2 ∧
      (fireRelockTimer
          (handleDoorbellEvent cfg (handleDoorbellEvent cfg s Unlock doorNo D1)
            Unlock doorNo D2) (s.nextTimerId + 1)).locks.lookup doorNo =
        some LockStateE.Locked ∧
      (fireRelockTimer
          (handleDoorbellEvent cfg (handleDoorbellEvent cfg s Unlock doorNo D1)
            Unlock doorNo D2) (s.nextTimerId + 1)).liveRelocks = [] := by
  intro cfg s doorNo st D1 D2 hlk hlive
  have hclear1 : clearDoorOpenDurationTimeout
      { s with locks := setAssoc s.locks doorNo LockStateE.Unlocked,
               liveRelocks := [] } =
      { s with locks := setAssoc s.locks doorNo LockStateE.Unlocked,
               liveRelocks := [] } :=
    clearDoorOpenDurationTimeout_of_empty _ rfl
  have hs1 : handleDoorbellEvent cfg s Unlock doorNo D1 =
      { s with locks := setAssoc s.locks doorNo LockStateE.Unlocked,
               liveRelocks := [(s.nextTimerId, D1 * 1000, doorNo)],
               doorOpenDurationTimeout := some s.nextTimerId,
               nextTimerId := s.nextTimerId + 1 } := by
    simp [handleDoorbellEvent, handleLockEventSync, hlk, hlive, hclear1,
      handleUnlockResume]
  have hlk1 : (setAssoc s.locks doorNo LockStateE.Unlocked).lookup doorNo =
      some LockStateE.Unlocked :=
    lookup_setAssoc _ _ _ (by rw [hlk]; rfl)
  have hs2 : handleDoorbellEvent cfg (handleDoorbellEvent cfg s Unlock doorNo D1)
      Unlock doorNo D2 =
      { s with locks := setAssoc (setAssoc s.locks doorNo LockStateE.Unlocked)
                 doorNo LockStateE.Unlocked,
               liveRelocks := [(s.nextTimerId + 1, D2 * 1000, doorNo)],
               doorOpenDurationTimeout := some (s.nextTimerId + 1),
               nextTimerId := s.nextTimerId + 1 + 1 } := by
    rw [hs1]
    simp [handleDoorbellEvent, handleLockEventSync, hlk1,
      clearDoorOpenDurationTimeout, handleUnlockResume]
  have hlk2 : ((setAssoc (setAssoc s.locks doorNo LockStateE.Unlocked)
      doorNo LockStateE.Unlocked).lookup doorNo).isSome := by
    rw [lookup_setAssoc _ _ _ (by rw [hlk1]; rfl)]; rfl
  have hne : (s.nextTimerId + 1 == s.nextTimerId) = false := by
    simp
  refine ⟨by rw [hs1], by rw [hs1]; exact hlk1, by rw [hs2], ?_, ?_, ?_⟩
  · rw [hs2]
    simp [fireRelockTimer, hne]
  · rw [hs2]
    simp only [fireRelockTimer, List.find?, beq_self_eq_true]
    exact lookup_setAssoc _ _ _ hlk2
  · rw [hs2]
    simp [fireRelockTimer]

open HikvisionDoorbellEvent in
/-- C6 witness: door `'1'`, durations 5 s then 7 s, from a fresh state
with no live relock timer. -/
theorem C6_unlock_auto_relock_sequential_witness :
    (handleDoorbellEvent ⟨1, 10000⟩ c6s0 Unlock "1" 5).liveRelocks =
        [(0, 5 * 1000, "1")] ∧
    (handleDoorbellEvent ⟨1, 10000⟩ c6s0 Unlock "1" 5).locks.lookup "1" =
        some LockStateE.Unlocked ∧
    (handleDoorbellEvent ⟨1, 10000⟩ (handleDoorbellEvent ⟨1, 10000⟩ c6s0 Unlock "1" 5)
        Unlock "1" 7).liveRelocks = [(0 + 1, 7 * 1000, "1")] ∧
    fireRelockTimer
        (handleDoorbellEvent ⟨1, 10000⟩ (handleDoorbellEvent ⟨1, 10000⟩ c6s0 Unlock "1" 5)
          Unlock "1" 7) 0 =
      handleDoorbellEvent ⟨1, 10000⟩ (handleDoorbellEvent ⟨1, 10000⟩ c6s0 Unlock "1" 5)
        Unlock "1" 7 ∧
    (fireRelockTimer
        (handleDoorbellEvent ⟨1, 10000⟩ (handleDoorbellEvent ⟨1, 10000⟩ c6s0 Unlock "1" 5)
          Unlock "1" 7) (0 + 1)).locks.lookup "1" = some LockStateE.Locked ∧
    (fireRelockTimer
        (handleDoorbellEvent ⟨1, 10000⟩ (handleDoorbellEvent ⟨1, 10000⟩ c6s0 Unlock "1" 5)
          Unlock "1" 7) (0 + 1)).liveRelocks = [] :=
  C6_unlock_auto_relock_sequential ⟨1, 10000⟩ c6s0 "1" LockStateE.Locked 5 7 rfl rfl

/-- The entry scan forwards exactly the entries whose host-parsed raw time
is strictly greater than the watermark, and tracks the strict maximum of
their raw times. -/
theorem acsScanEntries_spec (cfg : TimeCfg) (W : Int) :
    ∀ (entries : List AcsEventInfo),
      acsScanEntries cfg (some W) entries =
        (entries.filter (fun e => decide (W < rawDateParse cfg e.time)),
         optMaxInt ((entries.filter
           (fun e => decide (W < rawDateParse cfg e.time))).map
             (fun e => rawDateParse cfg e.time))) := by
  intro entries
  induction entries with
  | nil => rfl
  | cons e rest ih =>
    by_cases hle : rawDateParse cfg e.time ≤ W
    · have hb : decide (rawDateParse cfg e.time ≤ W) = true := by simpa using hle
      have hb2 : decide (W < rawDateParse cfg e.time) = false := by
        simpa using not_lt.mpr hle
      simp [acsScanEntries, hb, hb2, ih, List.filter_cons]
    · have hb : decide (rawDateParse cfg e.time ≤ W) = false := by simpa using hle
      have hb2 : decide (W < rawDateParse cfg e.time) = true := by
        simpa using not_le.mp hle
      simp [acsScanEntries, hb, hb2, ih, List.filter_cons, optMaxInt]

theorem optMaxInt_cons_ne_none (t : Int) (ts : List Int) :
    optMaxInt (t :: ts) ≠ none := by
  simp only [optMaxInt]
  cases optMaxInt ts <;> simp

theorem foldl_max_shift (a : Int) :
    ∀ (ts : List Int) (b : Int), ts.foldl max (max a b) = max a (ts.foldl max b) := by
  intro ts
  induction ts with
  | nil => intro b; rfl
  | cons t rest ih =>
    intro b
    simp only [List.foldl_cons]
    rw [max_assoc, ih]

/-- Resolving the `latestEventTime` accumulator against the kept default
yields the left fold by `max` when every tracked time dominates the
default. -/
theorem optMaxInt_getD (W : Int) :
    ∀ (ts : List Int), (∀ t ∈ ts, W ≤ t) →
      (match optMaxInt ts with | some v => v | none => W) = ts.foldl max W := by
  intro ts
  induction ts with
  | nil => intro _; rfl
  | cons t rest ih =>
    intro hall
    simp only [optMaxInt, List.foldl_cons]
    cases hmax : optMaxInt rest with
    | none =>
      have hnil : rest = [] := by
        cases rest with
        | nil => rfl
        | cons a b => exact absurd hmax (optMaxInt_cons_ne_none a b)
      subst hnil
      simp [max_eq_right (hall t (by simp))]
    | some l =>
      have hrest := ih (fun x hx => hall x (List.mem_cons_of_mem _ hx))
      rw [hmax] at hrest
      have hrest' : l = rest.foldl max W := hrest
      show max l t = rest.foldl max (max W t)
      rw [max_comm W t, foldl_max_shift, ← hrest', max_comm l t]

theorem le_foldl_max :
    ∀ (ts : List Int) (a : Int), a ≤ ts.foldl max a := by
  intro ts
  induction ts with
  | nil => intro a; exact le_refl a
  | cons t rest ih =>
    intro a
    simp only [List.foldl_cons]
    exact le_trans (le_max_left a t) (ih (max a t))

/-- C1 counterexample: the claim's skip test is stated in terms of the
Timezone-Resolver absolute time, but the code's `pollAndProcessAcsEvents`
compares `new Date(eventInfo.time)` (host interpretation) against the
watermark.  With resolver offset −3600 s (device timezone `"-01:00"`) and
host offset 0, the `(5, 214)` entry with wall-clock reading 1000 has
resolver absolute time 4600, strictly greater than the watermark 1000, yet
the cycle forwards nothing, emits nothing and leaves the watermark at
1000. -/
theorem C1_counterexample_resolver_time_not_used :
    convertDeviceTimeToUTC ⟨some (-3600), 0, 4600⟩ 1000 > (1000 : Int) ∧
    pollAndProcessAcsEvents ⟨some (-3600), 0, 4600⟩ (some 1000) 1000
      [⟨5, 214, 1000⟩] = ([], [], 1000) := by
  decide

/-- C1 amended: for every poll cycle with current watermark `W`, each
returned entry whose time as parsed directly by the host from the
device-local string (`new Date(eventInfo.time)`, not the Timezone
Resolver) is not strictly greater than `W` is skipped, every entry with
host-parsed time strictly greater than `W` is routed to the normalizer
(`processAcsEvent`), and after the cycle the watermark equals the maximum
host-parsed time among forwarded entries (unchanged if none); the
watermark never decreases. -/
theorem C1_acs_poller_watermark :
    ∀ (cfg : TimeCfg) (W : Int) (entries : List AcsEventInfo),
      (pollAndProcessAcsEvents cfg (some W) W entries).1 =
        entries.filter (fun e => decide (W < rawDateParse cfg e.time)) ∧
      (pollAndProcessAcsEvents cfg (some W) W entries).2.1 =
        (pollAndProcessAcsEvents cfg (some W) W entries).1.flatMap
          (processAcsEvent cfg) ∧
      (pollAndProcessAcsEvents cfg (some W) W entries).2.2 =
        (pollAndProcessAcsEvents cfg (some W) W entries).1.foldl
          (fun acc e => max acc (rawDateParse cfg e.time)) W ∧
      W ≤ (pollAndProcessAcsEvents cfg (some W) W entries).2.2 := by
  intro cfg W entries
  have hscan := acsScanEntries_spec cfg W entries
  have hpoll : pollAndProcessAcsEvents cfg (some W) W entries =
      (entries.filter (fun e => decide (W < rawDateParse cfg e.time)),
       (entries.filter (fun e => decide (W < rawDateParse cfg e.time))).flatMap
         (processAcsEvent cfg),
       match optMaxInt ((entries.filter
           (fun e => decide (W < rawDateParse cfg e.time))).map
             (fun e => rawDateParse cfg e.time)) with
       | some latest => latest
       | none => W) := by
    simp only [pollAndProcessAcsEvents, hscan]
  have hdom : ∀ t ∈ (entries.filter
      (fun e => decide (W < rawDateParse cfg e.time))).map
        (fun e => rawDateParse cfg e.time), W ≤ t := by
    intro t ht
    obtain ⟨e, he, rfl⟩ := List.mem_map.mp ht
    have := (List.mem_filter.mp he).2
    exact le_of_lt (by simpa using this)
  have hmax := optMaxInt_getD W _ hdom
  have hfoldmap : ((entries.filter
      (fun e => decide (W < rawDateParse cfg e.time))).map
        (fun e => rawDateParse cfg e.time)).foldl max W =
      (entries.filter (fun e => decide (W < rawDateParse cfg e.time))).foldl
        (fun acc e => max acc (rawDateParse cfg e.time)) W := by
    rw [List.foldl_map]
  rw [hpoll]
  refine ⟨rfl, rfl, ?_, ?_⟩
  · simp only
    rw [hmax, hfoldmap]
  · simp only
    rw [hmax]
    rw [hfoldmap] at hmax ⊢
    rw [← hfoldmap]
    exact le_foldl_max _ W

end Doorbell
